import Mathlib

/-!
Verification of the product-store CRUD service (store_api).

The embedding models the three source components:
* `Product` — the persisted entity (src/store/models/product.py),
* `ProductUsecase` — the five CRUD operations (src/store/usecases/product.py),
* `ProductController` — the HTTP adapter (src/store/controllers/product.py).

The relational table is a `List Product`; the transactional session is
explicit state passing: each mutating operation returns the result together
with the table after commit (on a constraint failure the transaction is
rolled back, so the returned table is the input table unchanged).
Timestamps are `Nat` (`datetime.utcnow` readings are passed in as a `now`
argument); the generated UUID string is passed in as a `newId` argument.
`Numeric(10, 2)` prices are modelled as integers in cents.
-/

/-- Entity `Product` (src/store/models/product.py): columns `id` (String
primary key, default uuid4), `name` (String, unique, not null), `quantity`
(Integer), `price` (Numeric(10,2), modelled in cents), `status` (Boolean),
`created_at` and `updated_at` (DateTime, default utcnow). There is no
`category` column. -/
structure Product where
  id : String
  name : String
  quantity : Int
  price : Int
  status : Bool
  created_at : Nat
  updated_at : Nat
deriving DecidableEq, Repr

/-- Modelled from the spec: schema `ProductIn` (src/store/schemas/product.py
is not in the sources); the create fields are `name`, `quantity`, `price`,
`status` (§6: "create fields (name, quantity, price, status)"). -/
structure ProductIn where
  name : String
  quantity : Int
  price : Int
  status : Bool
deriving DecidableEq, Repr

/-- Modelled from the spec: schema `ProductUpdate` (src/store/schemas/product.py
is not in the sources); "any subset of updatable fields" (§6), realised as
an explicit structure of optional fields as §9 prescribes. A field that is
`none` was omitted by the caller (`exclude_unset`). -/
structure ProductUpdate where
  name : Option String := none
  quantity : Option Int := none
  price : Option Int := none
  status : Option Bool := none
deriving DecidableEq, Repr

/-- Errors raised by the usecase layer: `NotFoundException` with its message
(src/store/core/exceptions.py, raised in the usecases), SQLAlchemy
`IntegrityError` carrying the driver detail `orig`, and Python
`AttributeError` (raised when `Product.category` is accessed even though the
entity has no such column). -/
inductive StoreErr where
  | notFound (msg : String)
  | integrityError (orig : String)
  | attributeError (msg : String)
deriving DecidableEq, Repr

/-- Modelled from the spec: the storage layer's constraint detail for a
duplicate name (`exc.orig` of the `IntegrityError`; the driver is outside
the sources, §7 calls it "the underlying constraint detail"). -/
def dupOrig : String := "UNIQUE constraint failed"

/-- Message of the `NotFoundException` raised by `get`, `update` and
`delete`: the Python f-string `Produto com id ... não encontrado`. -/
def notFoundMsg (id : String) : String :=
  "Produto com id " ++ id ++ " não encontrado"

/-- Lower-cased character list of a string, for case-insensitive matching
(the `ilike` comparison lower-cases both sides). -/
def lowerChars (s : String) : List Char :=
  s.data.map Char.toLower

/-- Checks that `pat` is a prefix of `hay` (character lists). -/
def listStartsWith : List Char → List Char → Bool
  | [], _ => true
  | _ :: _, [] => false
  | p :: ps, h :: hs => p == h && listStartsWith ps hs

/-- Checks that `pat` occurs contiguously inside `hay` (character lists). -/
def listContains (pat : List Char) : List Char → Bool
  | [] => pat.isEmpty
  | h :: hs => listStartsWith pat (h :: hs) || listContains pat hs

/-- SQL `hay ILIKE '%pat%'`: case-insensitive substring match. -/
def ilikeSub (hay pat : String) : Bool :=
  listContains (lowerChars pat) (lowerChars hay)

namespace ProductUsecase

/-- Usecase `create` (src/store/usecases/product.py): builds a `Product`
from the body with defaulted `id`, `created_at`, `updated_at`, adds it and
commits. The commit enforces the primary key on `id` and the uniqueness
constraint on `name`: on a violation the `IntegrityError` is re-raised
after rollback, leaving the table unchanged; otherwise the new row is
stored and its representation returned. Construction of the row
(`Product(**body.dict())` with column defaults): -/
def newRow (body : ProductIn) (newId : String) (now : Nat) : Product :=
  ⟨newId, body.name, body.quantity, body.price, body.status, now, now⟩

/-- Usecase `create`, continued: add and commit, with rollback on an
integrity violation. -/
def create (st : List Product) (body : ProductIn) (newId : String) (now : Nat) :
    Except StoreErr Product × List Product :=
  if st.any (fun q => q.id == newId || q.name == body.name) then
    (.error (.integrityError dupOrig), st)
  else
    (.ok (newRow body newId now), st ++ [newRow body newId now])

/-- Usecase `get`: `session.get(Product, id)`; raises `NotFoundException`
when no row has the identifier. No side effects. -/
def get (st : List Product) (id : String) : Except StoreErr Product :=
  match st.find? (fun p => p.id == id) with
  | some p => .ok p
  | none => .error (.notFound (notFoundMsg id))

/-- Usecase `query`: `select(Product)` with optional filters. A truthy
`name` adds `Product.name.ilike('%name%')` (`if name:` is false for `None`
and for the empty string). A truthy `category` evaluates
`Product.category`, which does not exist on the entity, so the call raises
`AttributeError` before any row is returned. -/
def query (st : List Product) (name : Option String) (category : Option String) :
    Except StoreErr (List Product) :=
  let afterName :=
    match name with
    | some n => if n = "" then st else st.filter (fun p => ilikeSub p.name n)
    | none => st
  match category with
  | some c =>
      if c = "" then .ok afterName
      else .error (.attributeError "type object Product has no attribute category")
  | none => .ok afterName

/-- Field application of `update`: `for key, value in
body.dict(exclude_unset=True).items(): setattr(product, key, value)` —
each field present in the payload overwrites the row's field, omitted
fields are untouched. -/
def applyUpdate (p : Product) (body : ProductUpdate) : Product :=
  { p with
    name := body.name.getD p.name
    quantity := body.quantity.getD p.quantity
    price := body.price.getD p.price
    status := body.status.getD p.status }

/-- Usecase `update`: fetches the row (raising `NotFoundException` if
absent), applies the set fields, sets `updated_at = datetime.utcnow()`,
and commits; an `IntegrityError` (duplicate `name` against another row)
rolls back, leaving the table unchanged. The mutated row (set fields
applied, then `product.updated_at = datetime.utcnow()`): -/
def updatedRow (p : Product) (body : ProductUpdate) (now : Nat) : Product :=
  { applyUpdate p body with updated_at := now }

/-- Usecase `update`, continued: fetch, apply, commit, with rollback on an
integrity violation. -/
def update (st : List Product) (id : String) (body : ProductUpdate) (now : Nat) :
    Except StoreErr Product × List Product :=
  match st.find? (fun p => p.id == id) with
  | none => (.error (.notFound (notFoundMsg id)), st)
  | some p =>
      if st.any (fun q => !(q.id == id) && q.name == (updatedRow p body now).name) then
        (.error (.integrityError dupOrig), st)
      else
        (.ok (updatedRow p body now),
         st.map (fun q => if q.id == id then updatedRow p body now else q))

/-- Usecase `delete`: fetches the row (raising `NotFoundException` if
absent), deletes it and commits. Returns nothing on success. -/
def delete (st : List Product) (id : String) : Except StoreErr Unit × List Product :=
  match st.find? (fun p => p.id == id) with
  | none => (.error (.notFound (notFoundMsg id)), st)
  | some _ => (.ok (), st.filter (fun p => !(p.id == id)))

end ProductUsecase

/-- Body of an HTTP response produced by the controller: a single product
representation, a list of representations, an error detail (FastAPI
`HTTPException(detail=...)`), or the empty body of a 204. -/
inductive RespBody where
  | product (p : Product)
  | products (ps : List Product)
  | detail (msg : String)
  | empty
deriving DecidableEq, Repr

/-- HTTP response: a numeric status code and a body. -/
structure Response where
  statusCode : Nat
  body : RespBody
deriving DecidableEq, Repr

namespace ProductController

/-- Controller `post` (src/store/controllers/product.py): calls
`usecase.create`; success is a 201 with the created representation; an
`IntegrityError` is caught and becomes a 400 whose detail is the f-string
`Erro de integridade: ...orig...`. Any other exception propagates
(`Except.error`). -/
def post (st : List Product) (body : ProductIn) (newId : String) (now : Nat) :
    Except StoreErr (Response × List Product) :=
  match ProductUsecase.create st body newId now with
  | (.ok p, st2) => .ok (⟨201, .product p⟩, st2)
  | (.error (.integrityError orig), st2) =>
      .ok (⟨400, .detail ("Erro de integridade: " ++ orig)⟩, st2)
  | (.error e, _) => .error e

/-- Controller `get`: 200 with the representation; `NotFoundException`
is caught and becomes a 404 carrying the exception's message. -/
def get (st : List Product) (id : String) : Except StoreErr Response :=
  match ProductUsecase.get st id with
  | .ok p => .ok ⟨200, .product p⟩
  | .error (.notFound m) => .ok ⟨404, .detail m⟩
  | .error e => .error e

/-- Controller `query`: 200 with the (possibly empty) list; no exception
is caught, so a usecase failure propagates. -/
def query (st : List Product) (name category : Option String) :
    Except StoreErr Response :=
  match ProductUsecase.query st name category with
  | .ok ps => .ok ⟨200, .products ps⟩
  | .error e => .error e

/-- Controller `patch`: 200 with the updated representation;
`NotFoundException` becomes a 404 with the message, `IntegrityError`
becomes a 400 with the `Erro de integridade` detail. -/
def patch (st : List Product) (id : String) (body : ProductUpdate) (now : Nat) :
    Except StoreErr (Response × List Product) :=
  match ProductUsecase.update st id body now with
  | (.ok p, st2) => .ok (⟨200, .product p⟩, st2)
  | (.error (.notFound m), st2) => .ok (⟨404, .detail m⟩, st2)
  | (.error (.integrityError orig), st2) =>
      .ok (⟨400, .detail ("Erro de integridade: " ++ orig)⟩, st2)
  | (.error e, _) => .error e

/-- Controller `delete`: 204 with empty body on success;
`NotFoundException` becomes a 404 carrying the exception's message. -/
def delete (st : List Product) (id : String) : Except StoreErr (Response × List Product) :=
  match ProductUsecase.delete st id with
  | (.ok _, st2) => .ok (⟨204, .empty⟩, st2)
  | (.error (.notFound m), st2) => .ok (⟨404, .detail m⟩, st2)
  | (.error e, _) => .error e

end ProductController

/-- One step of the store's evolution: some usecase operation (successful
or failed) runs against the table and leaves the table of its second
component. Mutating operations read `datetime.utcnow()`; the hypothesis
`hnow` records that the wall clock never lies behind a stored creation
time — each `created_at` was itself an earlier `utcnow` reading. -/
inductive Step : List Product → List Product → Prop where
  | ofCreate (st : List Product) (body : ProductIn) (newId : String) (now : Nat)
      (hnow : ∀ q ∈ st, q.created_at ≤ now) :
      Step st (ProductUsecase.create st body newId now).2
  | ofUpdate (st : List Product) (id : String) (body : ProductUpdate) (now : Nat)
      (hnow : ∀ q ∈ st, q.created_at ≤ now) :
      Step st (ProductUsecase.update st id body now).2
  | ofDelete (st : List Product) (id : String) :
      Step st (ProductUsecase.delete st id).2

/-- Tables reachable from the empty table by any sequence of create,
update and delete operations. -/
inductive Reachable : List Product → Prop where
  | init : Reachable []
  | step (st st2 : List Product) : Reachable st → Step st st2 → Reachable st2

/-- Wellformedness of a table: distinct primary keys and distinct names
across rows (the storage constraints), and `created_at ≤ updated_at` on
every row. -/
def WF (st : List Product) : Prop :=
  st.Pairwise (fun p q => p.id ≠ q.id ∧ p.name ≠ q.name) ∧
  ∀ p ∈ st, p.created_at ≤ p.updated_at

namespace ProductUsecase

theorem updatedRow_id (p : Product) (body : ProductUpdate) (now : Nat) :
    (updatedRow p body now).id = p.id := rfl

theorem updatedRow_name (p : Product) (body : ProductUpdate) (now : Nat) :
    (updatedRow p body now).name = body.name.getD p.name := rfl

theorem updatedRow_created_at (p : Product) (body : ProductUpdate) (now : Nat) :
    (updatedRow p body now).created_at = p.created_at := rfl

theorem updatedRow_updated_at (p : Product) (body : ProductUpdate) (now : Nat) :
    (updatedRow p body now).updated_at = now := rfl

theorem create_conflict (st : List Product) (body : ProductIn) (newId : String) (now : Nat)
    (h : st.any (fun q => q.id == newId || q.name == body.name) = true) :
    create st body newId now = (.error (.integrityError dupOrig), st) := by
  simp [create, h]

theorem create_success (st : List Product) (body : ProductIn) (newId : String) (now : Nat)
    (h : st.any (fun q => q.id == newId || q.name == body.name) = false) :
    create st body newId now =
      (.ok (newRow body newId now), st ++ [newRow body newId now]) := by
  simp [create, h]

theorem get_found (st : List Product) (id : String) (p : Product)
    (hf : st.find? (fun q => q.id == id) = some p) : get st id = .ok p := by
  unfold get; rw [hf]

theorem get_not_found (st : List Product) (id : String)
    (hf : st.find? (fun q => q.id == id) = none) :
    get st id = .error (.notFound (notFoundMsg id)) := by
  unfold get; rw [hf]

theorem update_not_found (st : List Product) (id : String) (body : ProductUpdate) (now : Nat)
    (hf : st.find? (fun q => q.id == id) = none) :
    update st id body now = (.error (.notFound (notFoundMsg id)), st) := by
  unfold update; rw [hf]

theorem update_found (st : List Product) (id : String) (body : ProductUpdate) (now : Nat)
    (p : Product) (hf : st.find? (fun q => q.id == id) = some p) :
    update st id body now =
      (if st.any (fun q => !(q.id == id) && q.name == (updatedRow p body now).name) then
        (.error (.integrityError dupOrig), st)
      else
        (.ok (updatedRow p body now),
         st.map (fun q => if q.id == id then updatedRow p body now else q))) := by
  unfold update; rw [hf]

theorem delete_not_found (st : List Product) (id : String)
    (hf : st.find? (fun q => q.id == id) = none) :
    delete st id = (.error (.notFound (notFoundMsg id)), st) := by
  unfold delete; rw [hf]

theorem delete_found (st : List Product) (id : String) (p : Product)
    (hf : st.find? (fun q => q.id == id) = some p) :
    delete st id = (.ok (), st.filter (fun q => !(q.id == id))) := by
  unfold delete; rw [hf]

end ProductUsecase

theorem wf_nil : WF [] := ⟨List.Pairwise.nil, by simp⟩

theorem wf_id_inj (st : List Product) (hwf : WF st) (a b : Product)
    (ha : a ∈ st) (hb : b ∈ st) (hid : a.id = b.id) : a = b := by
  by_cases hab : a = b
  · exact hab
  · have hsym : Symmetric (fun p q : Product => p.id ≠ q.id ∧ p.name ≠ q.name) :=
      fun x y h => ⟨Ne.symm h.1, Ne.symm h.2⟩
    exact absurd hid (List.Pairwise.forall hsym hwf.1 ha hb hab).1

theorem wf_name_inj (st : List Product) (hwf : WF st) (a b : Product)
    (ha : a ∈ st) (hb : b ∈ st) (hname : a.name = b.name) : a = b := by
  by_cases hab : a = b
  · exact hab
  · have hsym : Symmetric (fun p q : Product => p.id ≠ q.id ∧ p.name ≠ q.name) :=
      fun x y h => ⟨Ne.symm h.1, Ne.symm h.2⟩
    exact absurd hname (List.Pairwise.forall hsym hwf.1 ha hb hab).2

theorem wf_step (st st2 : List Product) (hwf : WF st) (hs : Step st st2) : WF st2 := by
  obtain ⟨hpw, hts⟩ := hwf
  cases hs with
  | ofCreate body newId now hnow =>
      cases hany : st.any (fun q => q.id == newId || q.name == body.name) with
      | true =>
          rw [ProductUsecase.create_conflict st body newId now hany]
          exact ⟨hpw, hts⟩
      | false =>
          rw [ProductUsecase.create_success st body newId now hany]
          show WF (st ++ [ProductUsecase.newRow body newId now])
          have hfr : ∀ q ∈ st, q.id ≠ newId ∧ q.name ≠ body.name := by
            intro q hq
            have h2 := List.any_eq_false.mp hany q hq
            simp only [Bool.or_eq_true, beq_iff_eq, not_or] at h2
            exact h2
          refine ⟨?_, ?_⟩
          · rw [List.pairwise_append]
            refine ⟨hpw, List.pairwise_singleton _ _, ?_⟩
            intro a ha b hb
            rw [List.mem_singleton] at hb
            subst hb
            exact ⟨(hfr a ha).1, (hfr a ha).2⟩
          · intro p hp
            rcases List.mem_append.mp hp with h | h
            · exact hts p h
            · rw [List.mem_singleton] at h
              subst h
              exact Nat.le_refl now
  | ofUpdate id body now hnow =>
      cases hf : st.find? (fun q => q.id == id) with
      | none =>
          rw [ProductUsecase.update_not_found st id body now hf]
          exact ⟨hpw, hts⟩
      | some p =>
          have hpid : p.id = id := by simpa using List.find?_some hf
          have hpmem : p ∈ st := List.mem_of_find?_eq_some hf
          rw [ProductUsecase.update_found st id body now p hf]
          cases hany : st.any
              (fun q => !(q.id == id) && q.name == (ProductUsecase.updatedRow p body now).name) with
          | true =>
              rw [if_pos rfl]
              exact ⟨hpw, hts⟩
          | false =>
              have hnodup : ∀ q ∈ st, ¬(q.id = id) → q.name ≠ (ProductUsecase.updatedRow p body now).name := by
                intro q hq hqid
                have h2 := List.any_eq_false.mp hany q hq
                simp only [Bool.and_eq_true, Bool.not_eq_true', beq_eq_false_iff_ne,
                  beq_iff_eq, not_and] at h2
                exact h2 hqid
              rw [if_neg Bool.false_ne_true]
              show WF (st.map (fun q => if q.id == id then ProductUsecase.updatedRow p body now else q))
              refine ⟨?_, ?_⟩
              · rw [List.pairwise_map]
                refine List.Pairwise.imp_of_mem ?_ hpw
                intro a b ha hb hab
                by_cases hA : a.id = id <;> by_cases hB : b.id = id
                · exact absurd (hA.trans hB.symm) hab.1
                · simp only [hA, hB, beq_iff_eq, if_true, if_false, eq_self_iff_true]
                  refine ⟨?_, ?_⟩
                  · rw [ProductUsecase.updatedRow_id, hpid]
                    exact fun hc => hB hc.symm
                  · exact fun hc => (hnodup b hb hB) (hc.symm)
                · simp only [hA, hB, beq_iff_eq, if_true, if_false, eq_self_iff_true]
                  refine ⟨?_, ?_⟩
                  · rw [ProductUsecase.updatedRow_id, hpid]
                    exact fun hc => hA hc
                  · exact fun hc => (hnodup a ha hA) hc
                · simp only [hA, hB, beq_iff_eq, if_true, if_false]
                  exact hab
              · intro q2 hq2
                rcases List.mem_map.mp hq2 with ⟨q, hq, hqe⟩
                by_cases hQ : q.id = id
                · rw [← hqe]
                  simp only [hQ, beq_iff_eq, if_true, eq_self_iff_true]
                  rw [ProductUsecase.updatedRow_created_at, ProductUsecase.updatedRow_updated_at]
                  exact hnow p hpmem
                · rw [← hqe]
                  simp only [beq_iff_eq, hQ, if_false]
                  exact hts q hq
  | ofDelete id =>
      cases hf : st.find? (fun q => q.id == id) with
      | none =>
          rw [ProductUsecase.delete_not_found st id hf]
          exact ⟨hpw, hts⟩
      | some p =>
          rw [ProductUsecase.delete_found st id p hf]
          exact ⟨List.Pairwise.sublist (List.filter_sublist st) hpw,
            fun q hq => hts q (List.mem_of_mem_filter hq)⟩

theorem reachable_wf (st : List Product) (h : Reachable st) : WF st := by
  induction h with
  | init => exact wf_nil
  | step st st2 hr hs ih => exact wf_step st st2 ih hs

theorem listStartsWith_iff : ∀ (pat hay : List Char),
    listStartsWith pat hay = true ↔ ∃ t, hay = pat ++ t
  | [], hay => by simp [listStartsWith]
  | p :: ps, [] => by simp [listStartsWith]
  | p :: ps, h :: hs => by
      simp only [listStartsWith, Bool.and_eq_true, beq_iff_eq, listStartsWith_iff ps hs,
        List.cons_append, List.cons.injEq]
      constructor
      · rintro ⟨hph, t, ht⟩
        exact ⟨t, hph.symm, ht⟩
      · rintro ⟨t, hph, ht⟩
        exact ⟨hph.symm, t, ht⟩

theorem listContains_iff (pat : List Char) : ∀ (hay : List Char),
    listContains pat hay = true ↔ ∃ s t, hay = s ++ pat ++ t
  | [] => by
      constructor
      · intro h
        have hp : pat = [] := by
          cases pat with
          | nil => rfl
          | cons a as => simp [listContains, List.isEmpty] at h
        exact ⟨[], [], by simp [hp]⟩
      · rintro ⟨s, t, h⟩
        rcases List.append_eq_nil.mp (List.append_eq_nil.mp h.symm).1 with ⟨hs, hpat⟩
        simp [listContains, hpat, List.isEmpty]
  | h :: hs => by
      simp only [listContains, Bool.or_eq_true, listStartsWith_iff, listContains_iff pat hs]
      constructor
      · rintro (⟨t, ht⟩ | ⟨s, t, ht⟩)
        · exact ⟨[], t, by simp [ht]⟩
        · exact ⟨h :: s, t, by simp [ht]⟩
      · rintro ⟨s, t, ht⟩
        cases s with
        | nil =>
            left
            exact ⟨t, by simpa using ht⟩
        | cons a s2 =>
            right
            rw [List.cons_append, List.cons_append, List.cons.injEq] at ht
            exact ⟨s2, t, ht.2⟩

theorem ilikeSub_iff (hay pat : String) :
    ilikeSub hay pat = true ↔ ∃ s t, lowerChars hay = s ++ lowerChars pat ++ t := by
  unfold ilikeSub
  exact listContains_iff (lowerChars pat) (lowerChars hay)

/-- Sample rows and inputs used by the concrete witnesses below. -/
def wIn : ProductIn := ⟨"Widget", 10, 999, true⟩

def wProd : Product := ⟨"id-1", "Widget", 10, 999, true, 5, 5⟩

def gProd : Product := ⟨"id-2", "Gadget", 1, 100, false, 0, 0⟩

/-- Claim C4: the claim reads the `category` filter of `query` as matching
products whose `category` contains the filter case-insensitively without
failing; the entity has no `category` column, so the code instead raises
`AttributeError` whenever a non-empty `category` filter is supplied (the
spec flags this as a latent inconsistency). The theorem evaluates the code
at a failing input. -/
theorem query_category_attribute_error :
    ProductUsecase.query [wProd] none (some "wid") =
      .error (.attributeError "type object Product has no attribute category") := rfl

/-- Claim C6: `query` with no filters returns every stored product; with a
non-empty `name` filter it returns exactly the stored products whose
lower-cased name contains the lower-cased filter as a contiguous substring;
and on an empty store it returns the empty list, not an error. -/
theorem query_filter_semantics (st : List Product) (n : String) (hn : n ≠ "") :
    ProductUsecase.query st none none = .ok st ∧
    ProductUsecase.query st (some n) none =
      .ok (st.filter (fun p => ilikeSub p.name n)) ∧
    ProductUsecase.query ([] : List Product) (some n) none = .ok [] ∧
    ProductUsecase.query ([] : List Product) none none = .ok [] ∧
    (∀ p, p ∈ st.filter (fun p => ilikeSub p.name n) ↔
      p ∈ st ∧ ∃ s t, lowerChars p.name = s ++ lowerChars n ++ t) := by
  refine ⟨rfl, ?_, ?_, rfl, ?_⟩
  · simp [ProductUsecase.query, hn]
  · simp [ProductUsecase.query, hn]
  · intro p
    rw [List.mem_filter, ilikeSub_iff]

/-- Claim C6 witness: the concrete behaviours at a one-row store and the
filter string `aa`. -/
theorem query_filter_semantics_witness :
    ProductUsecase.query [wProd] none none = .ok [wProd] ∧
    ProductUsecase.query [wProd] (some "aa") none = .ok [] ∧
    ProductUsecase.query ([] : List Product) (some "aa") none = .ok [] ∧
    ProductUsecase.query ([] : List Product) none none = .ok [] := by
  have h := query_filter_semantics [wProd] "aa" (by decide)
  exact ⟨h.1, h.2.1, h.2.2.1, h.2.2.2.1⟩

/-- Claim C10: an empty-string `name` or `category` filter is falsy in
Python (`if name:` / `if category:`), so it imposes no constraint: the
call behaves exactly as if the filter were absent, and with both filters
empty every stored product is returned without error. -/
theorem query_empty_filter_no_constraint (st : List Product)
    (c : Option String) (n : Option String) :
    ProductUsecase.query st (some "") c = ProductUsecase.query st none c ∧
    ProductUsecase.query st n (some "") = ProductUsecase.query st n none ∧
    ProductUsecase.query st (some "") (some "") = .ok st := by
  refine ⟨?_, ?_, ?_⟩ <;> simp [ProductUsecase.query]

/-- Claim C1: for every valid create input whose name is not already
stored (and a fresh, non-empty generated UUID, as `uuid.uuid4()` strings
always are), `create` succeeds: the stored row is appended, its `id` is
the non-empty generated identifier, `created_at` equals `updated_at`
(both are the creation-time clock reading), and `name`, `quantity`,
`price` and `status` equal the input fields. -/
theorem create_fresh_returns_input (st : List Product) (body : ProductIn)
    (newId : String) (now : Nat) (hid : newId ≠ "")
    (hfresh : ∀ q ∈ st, q.id ≠ newId) (hname : ∀ q ∈ st, q.name ≠ body.name) :
    ProductUsecase.create st body newId now =
      (.ok (ProductUsecase.newRow body newId now),
       st ++ [ProductUsecase.newRow body newId now]) ∧
    (ProductUsecase.newRow body newId now).id ≠ "" ∧
    (ProductUsecase.newRow body newId now).created_at =
      (ProductUsecase.newRow body newId now).updated_at ∧
    (ProductUsecase.newRow body newId now).name = body.name ∧
    (ProductUsecase.newRow body newId now).quantity = body.quantity ∧
    (ProductUsecase.newRow body newId now).price = body.price ∧
    (ProductUsecase.newRow body newId now).status = body.status := by
  have hany : st.any (fun q => q.id == newId || q.name == body.name) = false := by
    rw [List.any_eq_false]
    intro q hq
    simp only [Bool.or_eq_true, beq_iff_eq, not_or]
    exact ⟨hfresh q hq, hname q hq⟩
  exact ⟨ProductUsecase.create_success st body newId now hany, hid, rfl, rfl, rfl, rfl, rfl⟩

/-- Claim C1 witness: creating `Widget` in the empty store with id `id-1`
at time 5. -/
theorem create_fresh_returns_input_witness :
    ProductUsecase.create [] wIn "id-1" 5 = (.ok wProd, [wProd]) ∧
    wProd.id ≠ "" ∧ wProd.created_at = wProd.updated_at ∧
    wProd.name = wIn.name ∧ wProd.quantity = wIn.quantity ∧
    wProd.price = wIn.price ∧ wProd.status = wIn.status :=
  create_fresh_returns_input [] wIn "id-1" 5 (by decide)
    (by intro q hq; simp at hq) (by intro q hq; simp at hq)

/-- Claim C3: when a product with the requested name is already stored (in
any reachable table), a second `create` with that name fails with the
integrity conflict, the transaction is rolled back so the table is
unchanged, and (by the uniqueness invariant) the first product is the only
row with that name. -/
theorem create_duplicate_name_conflict (st : List Product) (body : ProductIn)
    (newId : String) (now : Nat) (p0 : Product)
    (hr : Reachable st) (hmem : p0 ∈ st) (hdup : p0.name = body.name) :
    ProductUsecase.create st body newId now =
      (.error (.integrityError dupOrig), st) ∧
    ∀ q ∈ st, q.name = p0.name → q = p0 := by
  have hany : st.any (fun q => q.id == newId || q.name == body.name) = true := by
    rw [List.any_eq_true]
    exact ⟨p0, hmem, by simp [hdup]⟩
  refine ⟨ProductUsecase.create_conflict st body newId now hany, ?_⟩
  intro q hq hqname
  exact wf_name_inj st (reachable_wf st hr) q p0 hq hmem hqname

/-- Claim C3 witness: the store holding exactly `Widget` (reachable by one
create from the empty store) rejects a second `Widget`. -/
theorem create_duplicate_name_conflict_witness :
    ProductUsecase.create [wProd] wIn "id-2" 7 =
      (.error (.integrityError dupOrig), [wProd]) := by
  have hr : Reachable [wProd] := by
    refine Reachable.step [] [wProd] Reachable.init ?_
    have hs := Step.ofCreate ([] : List Product) wIn "id-1" 5 (by intro q hq; simp at hq)
    exact hs
  exact (create_duplicate_name_conflict [wProd] wIn "id-2" 7 wProd hr
    (by simp) rfl).1

/-- Claim C5: `get` on an identifier with no stored record fails with the
`NotFound` error, and `update` on that identifier fails with the `NotFound`
error and performs no write — the returned table is the input table. -/
theorem missing_id_not_found (st : List Product) (id : String)
    (body : ProductUpdate) (now : Nat)
    (hnone : st.find? (fun q => q.id == id) = none) :
    ProductUsecase.get st id = .error (.notFound (notFoundMsg id)) ∧
    ProductUsecase.update st id body now =
      (.error (.notFound (notFoundMsg id)), st) := by
  exact ⟨ProductUsecase.get_not_found st id hnone,
    ProductUsecase.update_not_found st id body now hnone⟩

/-- Claim C5 witness: a never-created id `zzz` against the one-row store. -/
theorem missing_id_not_found_witness :
    ProductUsecase.get [wProd] "zzz" = .error (.notFound (notFoundMsg "zzz")) ∧
    ProductUsecase.update [wProd] "zzz" ⟨none, some 5, none, none⟩ 9 =
      (.error (.notFound (notFoundMsg "zzz")), [wProd]) :=
  missing_id_not_found [wProd] "zzz" ⟨none, some 5, none, none⟩ 9 rfl

/-- Claim C7: `delete` on a stored identifier succeeds returning no value
and removes the row, a subsequent `get` on the same identifier fails with
`NotFound`, and `delete` on an identifier with no stored record (any table
`st2` without it) fails with `NotFound`, leaving the table unchanged. -/
theorem delete_then_get_not_found (st st2 : List Product) (id : String) (p0 : Product)
    (hf : st.find? (fun q => q.id == id) = some p0)
    (hnone : st2.find? (fun q => q.id == id) = none) :
    ProductUsecase.delete st id = (.ok (), st.filter (fun q => !(q.id == id))) ∧
    ProductUsecase.get (st.filter (fun q => !(q.id == id))) id =
      .error (.notFound (notFoundMsg id)) ∧
    ProductUsecase.delete st2 id = (.error (.notFound (notFoundMsg id)), st2) := by
  refine ⟨ProductUsecase.delete_found st id p0 hf, ?_,
    ProductUsecase.delete_not_found st2 id hnone⟩
  apply ProductUsecase.get_not_found
  rw [List.find?_eq_none]
  intro q hq
  have := (List.mem_filter.mp hq).2
  simpa using this

/-- Claim C7 witness: deleting `Widget` from the one-row store empties it;
getting or deleting that id afterwards fails with `NotFound`. -/
theorem delete_then_get_not_found_witness :
    ProductUsecase.delete [wProd] "id-1" = (.ok (), []) ∧
    ProductUsecase.get ([] : List Product) "id-1" =
      .error (.notFound (notFoundMsg "id-1")) ∧
    ProductUsecase.delete ([] : List Product) "id-1" =
      (.error (.notFound (notFoundMsg "id-1")), []) :=
  delete_then_get_not_found [wProd] [] "id-1" wProd rfl rfl

/-- Claim C2: on an existing product, a partial update (whose resulting
name does not collide with another row, so the commit succeeds) applies
exactly the fields present in the payload, leaves every omitted field and
`id` and `created_at` unchanged, and — the update's `utcnow` reading being
later than the one stored in the row — sets `updated_at` strictly greater
than the prior `updated_at`. -/
theorem update_partial_semantics (st : List Product) (id : String)
    (body : ProductUpdate) (now : Nat) (p0 : Product)
    (hf : st.find? (fun q => q.id == id) = some p0)
    (hclock : p0.updated_at < now)
    (hnoconf : ∀ q ∈ st, q.id ≠ p0.id → q.name ≠ body.name.getD p0.name) :
    ProductUsecase.update st id body now =
      (.ok (ProductUsecase.updatedRow p0 body now),
       st.map (fun q => if q.id == id then ProductUsecase.updatedRow p0 body now else q)) ∧
    (ProductUsecase.updatedRow p0 body now).id = p0.id ∧
    (ProductUsecase.updatedRow p0 body now).created_at = p0.created_at ∧
    (ProductUsecase.updatedRow p0 body now).name = body.name.getD p0.name ∧
    (ProductUsecase.updatedRow p0 body now).quantity = body.quantity.getD p0.quantity ∧
    (ProductUsecase.updatedRow p0 body now).price = body.price.getD p0.price ∧
    (ProductUsecase.updatedRow p0 body now).status = body.status.getD p0.status ∧
    p0.updated_at < (ProductUsecase.updatedRow p0 body now).updated_at := by
  have hpid : p0.id = id := by simpa using List.find?_some hf
  have hany : st.any
      (fun q => !(q.id == id) && q.name == (ProductUsecase.updatedRow p0 body now).name) = false := by
    rw [List.any_eq_false]
    intro q hq
    simp only [Bool.and_eq_true, Bool.not_eq_true', beq_eq_false_iff_ne, beq_iff_eq, not_and]
    intro hqid
    rw [ProductUsecase.updatedRow_name]
    exact hnoconf q hq (by rw [hpid]; exact hqid)
  rw [ProductUsecase.update_found st id body now p0 hf, hany, if_neg Bool.false_ne_true]
  exact ⟨rfl, rfl, rfl, rfl, rfl, rfl, rfl, hclock⟩

/-- Claim C2 witness: updating only `quantity := 5` on the stored `Widget`
row at time 9 changes quantity to 5, keeps name, price, status, id and
created_at, and advances `updated_at` from 5 to 9. -/
theorem update_partial_semantics_witness :
    ProductUsecase.update [wProd] "id-1" ⟨none, some 5, none, none⟩ 9 =
      (.ok ⟨"id-1", "Widget", 5, 999, true, 5, 9⟩,
       [⟨"id-1", "Widget", 5, 999, true, 5, 9⟩]) ∧
    wProd.updated_at < 9 := by
  have h := update_partial_semantics [wProd] "id-1" ⟨none, some 5, none, none⟩ 9 wProd rfl
    (by decide)
    (by
      intro q hq hne
      rw [List.mem_singleton] at hq
      subst hq
      exact absurd rfl hne)
  exact ⟨h.1, h.2.2.2.2.2.2.2⟩

/-- Claim C8: every product stored in a reachable table satisfies
`created_at ≤ updated_at` (before and after one more step), and no
operation step modifies the `id` or the `created_at` of a surviving row
(rows are identified by their immutable primary key). -/
theorem reachable_timestamp_id_invariants (st st2 : List Product)
    (hr : Reachable st) (hs : Step st st2) :
    (∀ p ∈ st, p.created_at ≤ p.updated_at) ∧
    (∀ p ∈ st2, p.created_at ≤ p.updated_at) ∧
    (∀ p2 ∈ st2, ∀ p ∈ st, p2.id = p.id → p2.created_at = p.created_at) := by
  have hwf := reachable_wf st hr
  have hwf2 := reachable_wf st2 (Reachable.step st st2 hr hs)
  refine ⟨hwf.2, hwf2.2, ?_⟩
  cases hs with
  | ofCreate body newId now hnow =>
      cases hany : st.any (fun q => q.id == newId || q.name == body.name) with
      | true =>
          rw [ProductUsecase.create_conflict st body newId now hany]
          intro p2 hp2 p hp hid
          rw [wf_id_inj st hwf p2 p hp2 hp hid]
      | false =>
          rw [ProductUsecase.create_success st body newId now hany]
          intro p2 hp2 p hp hid
          rcases List.mem_append.mp hp2 with h | h
          · rw [wf_id_inj st hwf p2 p h hp hid]
          · rw [List.mem_singleton] at h
            subst h
            exfalso
            have h2 := List.any_eq_false.mp hany p hp
            simp only [Bool.or_eq_true, beq_iff_eq, not_or] at h2
            exact h2.1 hid.symm
  | ofUpdate id body now hnow =>
      cases hf : st.find? (fun q => q.id == id) with
      | none =>
          rw [ProductUsecase.update_not_found st id body now hf]
          intro p2 hp2 p hp hid
          rw [wf_id_inj st hwf p2 p hp2 hp hid]
      | some p0 =>
          have hp0mem : p0 ∈ st := List.mem_of_find?_eq_some hf
          rw [ProductUsecase.update_found st id body now p0 hf]
          cases hany : st.any
              (fun q => !(q.id == id) && q.name == (ProductUsecase.updatedRow p0 body now).name) with
          | true =>
              rw [if_pos rfl]
              intro p2 hp2 p hp hid
              rw [wf_id_inj st hwf p2 p hp2 hp hid]
          | false =>
              rw [if_neg Bool.false_ne_true]
              intro p2 hp2 p hp hid
              rcases List.mem_map.mp hp2 with ⟨q, hq, hqe⟩
              by_cases hQ : q.id = id
              · rw [← hqe] at hid ⊢
                simp only [beq_iff_eq, hQ, if_true, eq_self_iff_true] at hid ⊢
                rw [ProductUsecase.updatedRow_created_at]
                rw [ProductUsecase.updatedRow_id] at hid
                rw [wf_id_inj st hwf p0 p hp0mem hp hid]
              · rw [← hqe] at hid ⊢
                simp only [beq_iff_eq, hQ, if_false] at hid ⊢
                rw [wf_id_inj st hwf q p hq hp hid]
  | ofDelete id =>
      cases hf : st.find? (fun q => q.id == id) with
      | none =>
          rw [ProductUsecase.delete_not_found st id hf]
          intro p2 hp2 p hp hid
          rw [wf_id_inj st hwf p2 p hp2 hp hid]
      | some p0 =>
          rw [ProductUsecase.delete_found st id p0 hf]
          intro p2 hp2 p hp hid
          rw [wf_id_inj st hwf p2 p (List.mem_of_mem_filter hp2) hp hid]

/-- Claim C8 witness: the row created in the empty store satisfies the
timestamp invariant. -/
theorem reachable_timestamp_id_invariants_witness :
    wProd.created_at ≤ wProd.updated_at := by
  have hs : Step [] (ProductUsecase.create [] wIn "id-1" 5).2 :=
    Step.ofCreate [] wIn "id-1" 5 (by intro q hq; simp at hq)
  have h := reachable_timestamp_id_invariants []
    (ProductUsecase.create [] wIn "id-1" 5).2 Reachable.init hs
  exact h.2.1 wProd (by decide)

/-- Claim C9: the controller maps each usecase outcome to the specified
response: successful create to a 201 carrying the created representation,
successful delete to a 204 with empty body, every `NotFound` failure (get,
delete, patch) to a 404 carrying the error's message, and every integrity
conflict (post, patch) to a 400 whose detail describes the conflict. -/
theorem controller_outcome_mapping
    (stA stA2 : List Product) (bodyA : ProductIn) (idA : String) (nowA : Nat) (pA : Product)
    (hA : ProductUsecase.create stA bodyA idA nowA = (.ok pA, stA2))
    (stB stB2 : List Product) (idB : String)
    (hB : ProductUsecase.delete stB idB = (.ok (), stB2))
    (stC : List Product) (idC : String) (mC : String)
    (hC : ProductUsecase.get stC idC = .error (.notFound mC))
    (stD stD2 : List Product) (idD : String) (mD : String)
    (hD : ProductUsecase.delete stD idD = (.error (.notFound mD), stD2))
    (stE stE2 : List Product) (idE : String) (bodyE : ProductUpdate) (nowE : Nat) (mE : String)
    (hE : ProductUsecase.update stE idE bodyE nowE = (.error (.notFound mE), stE2))
    (stF stF2 : List Product) (bodyF : ProductIn) (idF : String) (nowF : Nat) (oF : String)
    (hF : ProductUsecase.create stF bodyF idF nowF = (.error (.integrityError oF), stF2))
    (stG stG2 : List Product) (idG : String) (bodyG : ProductUpdate) (nowG : Nat) (oG : String)
    (hG : ProductUsecase.update stG idG bodyG nowG = (.error (.integrityError oG), stG2)) :
    ProductController.post stA bodyA idA nowA = .ok (⟨201, .product pA⟩, stA2) ∧
    ProductController.delete stB idB = .ok (⟨204, .empty⟩, stB2) ∧
    ProductController.get stC idC = .ok ⟨404, .detail mC⟩ ∧
    ProductController.delete stD idD = .ok (⟨404, .detail mD⟩, stD2) ∧
    ProductController.patch stE idE bodyE nowE = .ok (⟨404, .detail mE⟩, stE2) ∧
    ProductController.post stF bodyF idF nowF =
      .ok (⟨400, .detail ("Erro de integridade: " ++ oF)⟩, stF2) ∧
    ProductController.patch stG idG bodyG nowG =
      .ok (⟨400, .detail ("Erro de integridade: " ++ oG)⟩, stG2) := by
  refine ⟨?_, ?_, ?_, ?_, ?_, ?_, ?_⟩
  · unfold ProductController.post
    rw [hA]
  · unfold ProductController.delete
    rw [hB]
  · unfold ProductController.get
    rw [hC]
  · unfold ProductController.delete
    rw [hD]
  · unfold ProductController.patch
    rw [hE]
  · unfold ProductController.post
    rw [hF]
  · unfold ProductController.patch
    rw [hG]

/-- Claim C9 witness: the concrete mappings — create `Widget` in the empty
store (201), delete it (204), get and delete a missing id (404 with the
message), patch a missing id (404), recreate a duplicate `Widget` (400),
and patch `Gadget` to the name `Widget` (400). -/
theorem controller_outcome_mapping_witness :
    ProductController.post [] wIn "id-1" 5 = .ok (⟨201, .product wProd⟩, [wProd]) ∧
    ProductController.delete [wProd] "id-1" = .ok (⟨204, .empty⟩, []) ∧
    ProductController.get ([] : List Product) "zzz" =
      .ok ⟨404, .detail (notFoundMsg "zzz")⟩ ∧
    ProductController.delete ([] : List Product) "zzz" =
      .ok (⟨404, .detail (notFoundMsg "zzz")⟩, []) ∧
    ProductController.patch ([] : List Product) "zzz" ⟨none, some 5, none, none⟩ 9 =
      .ok (⟨404, .detail (notFoundMsg "zzz")⟩, []) ∧
    ProductController.post [wProd] wIn "id-2" 7 =
      .ok (⟨400, .detail ("Erro de integridade: " ++ dupOrig)⟩, [wProd]) ∧
    ProductController.patch [wProd, gProd] "id-2" ⟨some "Widget", none, none, none⟩ 9 =
      .ok (⟨400, .detail ("Erro de integridade: " ++ dupOrig)⟩, [wProd, gProd]) :=
  controller_outcome_mapping [] [wProd] wIn "id-1" 5 wProd rfl
    [wProd] [] "id-1" rfl
    [] "zzz" (notFoundMsg "zzz") rfl
    [] [] "zzz" (notFoundMsg "zzz") rfl
    [] [] "zzz" ⟨none, some 5, none, none⟩ 9 (notFoundMsg "zzz") rfl
    [wProd] [wProd] wIn "id-2" 7 dupOrig rfl
    [wProd, gProd] [wProd, gProd] "id-2" ⟨some "Widget", none, none, none⟩ 9 dupOrig rfl
